import Mathlib

/-
Shallow embedding of the TeaFI auto-swap orchestrator (src/index.js) and
verification of the frozen claims about it.

Conventions of the embedding:
- JavaScript BigInt values become Lean `Int`, JavaScript numbers used by the
  configuration become `Rat` (the code only stores and compares finite
  decimal values; JSON stringify/parse of finite numbers is value-exact).
- The global object `nonceTracker` becomes an association list from string
  keys to `Int`; property read, write and delete keep the JS semantics at
  the level of `lookup`.
- JavaScript truthiness is modelled explicitly where the source relies on
  it: `0n` is falsy in `nonceTracker[nonceKey] || (pendingNonce - 1n)`,
  and absent fields are falsy.
- External calls (RPC reads, HTTP requests, transaction submission) are
  inputs of the embedded functions: each call site receives the value or
  the error the outside world would have produced there.
-/

namespace TeaFI

/-- Chain id constant of the source (`TEAFI_CHAIN_ID = 137`). -/
def TEAFI_CHAIN_ID : Nat := 137

/-- Zero address constant (`POL_ADDRESS`). -/
def POL_ADDRESS : String := "0x0000000000000000000000000000000000000000"

/-- USDC token address constant (`USDC_ADDRESS`). -/
def USDC_ADDRESS : String := "0x3c499c542cEF5E3811e1192ce70d8cC03d5c3359"

/-- USDT token address constant (`USDT_ADDRESS`). -/
def USDT_ADDRESS : String := "0xc2132D05D31c914a87C6611C10748AEb04B58e8F"

/-- One fixed swap direction, as in the `swapDirections` array of the
source. The JS field `from` is rendered `fromSym` and `to` is `toSym`
because `from` is reserved in Lean. -/
structure SwapDirection where
  fromSym : String
  toSym : String
  tokenIn : String
  tokenOut : String
deriving DecidableEq, Repr, Inhabited

/-- The fixed two-element direction set of the source. -/
def swapDirections : List SwapDirection :=
  [ { fromSym := "USDC", toSym := "USDT", tokenIn := USDC_ADDRESS, tokenOut := USDT_ADDRESS },
    { fromSym := "USDT", toSym := "USDC", tokenIn := USDT_ADDRESS, tokenOut := USDC_ADDRESS } ]

/-- The global `nonceTracker` object: keys are `"<chainId>_<address>"`
strings, values are BigInt nonces. -/
abbrev NonceTracker := List (String × Int)

/-- Property read `nonceTracker[k]`. -/
def trackerGet (t : NonceTracker) (k : String) : Option Int :=
  t.lookup k

/-- Property delete `delete nonceTracker[k]`. -/
def trackerDelete (t : NonceTracker) (k : String) : NonceTracker :=
  t.filter (fun p => p.1 != k)

/-- Property write `nonceTracker[k] = v` (read back through `trackerGet`
this behaves exactly like the JS object write). -/
def trackerSet (t : NonceTracker) (k : String) (v : Int) : NonceTracker :=
  (k, v) :: trackerDelete t k

/-- The key string `` `${TEAFI_CHAIN_ID}_${walletAddress}` ``. -/
def nonceKeyFor (walletAddress : String) : String :=
  toString TEAFI_CHAIN_ID ++ "_" ++ walletAddress

/-- The JS expression `nonceTracker[nonceKey] || (pendingNonce - 1n)`:
a present but zero cached value is falsy, so it is replaced by the
default `pendingNonce - 1n`, exactly as an absent record is. -/
def jsLastUsed (cached : Option Int) (pendingNonce : Int) : Int :=
  match cached with
  | some v => if v = 0 then pendingNonce - 1 else v
  | none => pendingNonce - 1

/-- The value computed by `getNextNonce`:
`pendingNonce > lastUsedNonce + 1n ? pendingNonce : lastUsedNonce + 1n`. -/
def nextNonceValue (pendingNonce : Int) (cached : Option Int) : Int :=
  if pendingNonce > jsLastUsed cached pendingNonce + 1 then pendingNonce
  else jsLastUsed cached pendingNonce + 1

/-- Embedding of `getNextNonce(provider, walletAddress)`. The `shouldStop`
flag, the `ethers.isAddress` verdict and the pending transaction count
returned by the provider are inputs. On success the function returns the
allocated nonce and the updated tracker. -/
def getNextNonce (shouldStop isValidAddress : Bool) (pendingNonce : Int)
    (walletAddress : String) (t : NonceTracker) : Except String (Int × NonceTracker) :=
  if shouldStop then .error "Process stopped"
  else if isValidAddress = false then .error "Invalid wallet address"
  else
    let nonceKey := nonceKeyFor walletAddress
    let nextNonce := nextNonceValue pendingNonce (trackerGet t nonceKey)
    .ok (nextNonce, trackerSet t nonceKey nextNonce)

/-- A run of `n` consecutive `getNextNonce` calls on one key with the
chain pending count held fixed, collecting the returned nonces. -/
def nextNonceRun (pendingNonce : Int) (walletAddress : String) :
    Nat → NonceTracker → List Int
  | 0, _ => []
  | n + 1, t =>
    match getNextNonce false true pendingNonce walletAddress t with
    | .ok (v, t1) => v :: nextNonceRun pendingNonce walletAddress n t1
    | .error _ => []

/-- Executable check that each adjacent pair of a list increases by
exactly 1. -/
def stepByOneB : List Int → Bool
  | a :: b :: rest => decide (b = a + 1) && stepByOneB (b :: rest)
  | _ => true

/-- The property "returned values are strictly increasing by exactly 1"
for a list of nonces. -/
def stepByOne (l : List Int) : Prop := stepByOneB l = true

instance (l : List Int) : Decidable (stepByOne l) :=
  inferInstanceAs (Decidable (stepByOneB l = true))

theorem trackerGet_set (t : NonceTracker) (k : String) (v : Int) :
    trackerGet (trackerSet t k v) k = some v := by
  simp [trackerGet, trackerSet, List.lookup]

theorem trackerGet_delete (t : NonceTracker) (k : String) :
    trackerGet (trackerDelete t k) k = none := by
  induction t with
  | nil => rfl
  | cons hd tl ih =>
    obtain ⟨k1, v1⟩ := hd
    by_cases h : k1 = k
    · have hstep : trackerDelete ((k1, v1) :: tl) k = trackerDelete tl k := by
        simp [trackerDelete, List.filter_cons, h]
      rw [hstep, ih]
    · have hstep : trackerDelete ((k1, v1) :: tl) k = (k1, v1) :: trackerDelete tl k := by
        simp [trackerDelete, List.filter_cons, h]
      rw [hstep]
      have hk : (k == k1) = false := by
        simp [beq_eq_false_iff_ne, Ne.symm h]
      simp only [trackerGet, List.lookup, hk]
      exact ih

theorem nextNonceValue_eq_max (p : Int) (c : Option Int) :
    nextNonceValue p c = max p (jsLastUsed c p + 1) := by
  unfold nextNonceValue
  split <;> omega

theorem nextNonceValue_none (p : Int) :
    nextNonceValue p none = p := by
  have h : jsLastUsed none p = p - 1 := rfl
  unfold nextNonceValue
  rw [h]
  split <;> omega

/-- Helper: prepending the start value to a shifted range map. -/
theorem map_range_succ_shift (v : Int) (n : Nat) :
    v :: (List.range n).map (fun j : Nat => (v + 1 + j : Int)) =
      (List.range (n + 1)).map (fun j : Nat => (v + j : Int)) := by
  induction n with
  | zero => simp [List.range_succ]
  | succ m ih =>
    rw [List.range_succ, List.map_append, ← List.cons_append, ih,
        @List.range_succ (m + 1), List.map_append]
    congr 1
    simp only [List.map_cons, List.map_nil, List.cons.injEq, and_true]
    push_cast
    ring

/-- Helper: from a tracker whose cached value for the key is `v ≥ 1`, with
the fixed pending count `p ≤ v + 1`, a run of `n` calls returns
`v+1, v+2, ..., v+n`. -/
theorem nextNonceRun_cached (p : Int) (addr : String) :
    ∀ (n : Nat) (v : Int) (t : NonceTracker),
      trackerGet t (nonceKeyFor addr) = some v → 1 ≤ v → p ≤ v + 1 →
      nextNonceRun p addr n t = (List.range n).map (fun j : Nat => (v + 1 + j : Int))
  | 0, _, _, _, _, _ => rfl
  | n + 1, v, t, hget, hv, hp => by
    have hv0 : v ≠ 0 := by omega
    have hval : nextNonceValue p (trackerGet t (nonceKeyFor addr)) = v + 1 := by
      rw [hget, nextNonceValue_eq_max]
      simp only [jsLastUsed, if_neg hv0]
      omega
    have hrest :
        nextNonceRun p addr n (trackerSet t (nonceKeyFor addr) (v + 1)) =
          (List.range n).map (fun j : Nat => ((v + 1) + 1 + j : Int)) :=
      nextNonceRun_cached p addr n (v + 1)
        (trackerSet t (nonceKeyFor addr) (v + 1))
        (trackerGet_set t (nonceKeyFor addr) (v + 1)) (by omega) (by omega)
    simp only [nextNonceRun, getNextNonce, Bool.false_eq_true, if_false,
      Bool.true_eq_false, hval, hrest]
    have := map_range_succ_shift (v + 1) n
    simpa [add_assoc, add_comm, add_left_comm] using this

/-- C1, counterexample: with the chain pending count fixed at 0 and no
cached record, two consecutive `getNextNonce` calls both return 0 (the
cached `0n` is falsy in `nonceTracker[nonceKey] || (pendingNonce - 1n)`,
so the second call re-derives the default), refuting "returned values are
strictly increasing by exactly 1". -/
theorem getNextNonce_C1_counterexample :
    nextNonceRun 0 "0xWallet" 2 [] = [0, 0] ∧
    ¬ stepByOne (nextNonceRun 0 "0xWallet" 2 []) := by
  constructor
  · rfl
  · decide

/-- C1 (amended): `getNextNonce` returns `max(p, last+1)` and caches the
returned value as the new `last`, where `last` is the cached value for the
key when a record exists with a nonzero value, and defaults to `p-1` when
no record exists or when the cached value is `0` (JS falsiness of `0n`).
Consequently, for all sequences of `nextNonce` calls on one key with the
chain pending count held fixed at `p ≥ 1` and no prior record, the
returned values are `p, p+1, p+2, ...`, strictly increasing by exactly 1
(for `p = 0` the value 0 repeats instead, see the counterexample). -/
theorem getNextNonce_C1_amended (p : Int) (addr : String) (n : Nat)
    (t : NonceTracker) (hp : 1 ≤ p) :
    (∀ nxt t1, getNextNonce false true p addr t = .ok (nxt, t1) →
      nxt = max p (jsLastUsed (trackerGet t (nonceKeyFor addr)) p + 1) ∧
      trackerGet t1 (nonceKeyFor addr) = some nxt) ∧
    nextNonceRun p addr n [] = (List.range n).map (fun j : Nat => (p + j : Int)) := by
  constructor
  · intro nxt t1 h
    simp only [getNextNonce, Bool.false_eq_true, if_false, Bool.true_eq_false,
      Except.ok.injEq, Prod.mk.injEq] at h
    obtain ⟨h1, h2⟩ := h
    constructor
    · rw [← h1, nextNonceValue_eq_max]
    · rw [← h2, ← h1, trackerGet_set]
  · cases n with
    | zero => rfl
    | succ m =>
      have h0 : trackerGet ([] : NonceTracker) (nonceKeyFor addr) = none := rfl
      have hval : nextNonceValue p (trackerGet ([] : NonceTracker) (nonceKeyFor addr)) = p := by
        rw [h0, nextNonceValue_none]
      have hrest :
          nextNonceRun p addr m (trackerSet [] (nonceKeyFor addr) p) =
            (List.range m).map (fun j : Nat => (p + 1 + j : Int)) :=
        nextNonceRun_cached p addr m p (trackerSet [] (nonceKeyFor addr) p)
          (trackerGet_set [] (nonceKeyFor addr) p) hp (by omega)
      simp only [nextNonceRun, getNextNonce, Bool.false_eq_true, if_false,
        Bool.true_eq_false, hval, hrest]
      exact map_range_succ_shift p m

/-- Witness for the amended C1 theorem at `p = 1`, `n = 3`. -/
theorem getNextNonce_C1_amended_witness :
    nextNonceRun 1 "0xWallet" 3 [] = (List.range 3).map (fun j : Nat => (1 + j : Int)) :=
  (getNextNonce_C1_amended 1 "0xWallet" 3 [] (by decide)).2

/-- The mutable state touched by `sleep(ms)`: the cancellation flag, the
in-flight counter `activeProcesses` and the one-shot interrupt log flag. -/
structure SleepCtx where
  shouldStop : Bool
  activeProcesses : Int
  hasLoggedSleepInterrupt : Bool
deriving DecidableEq, Repr

/-- Embedding of `sleep(ms)`. When the cancellation flag is already set at
entry, the function logs once and returns immediately: no wait, no counter
change. Otherwise it increments `activeProcesses`, waits either the full
`ms` (no stop request arrives) or until the 100 ms stop checker observes a
stop request arriving at `stopDuringAt` (modelled input), and in a
`finally` block decrements the counter through `Math.max(0, ...)`. The
returned `Nat` is the elapsed wait in milliseconds. -/
def sleep (ms : Nat) (stopDuringAt : Option Nat) (s : SleepCtx) : SleepCtx × Nat :=
  if s.shouldStop then
    ({ s with hasLoggedSleepInterrupt := true }, 0)
  else
    match stopDuringAt with
    | some tStop =>
      ({ s with shouldStop := true, hasLoggedSleepInterrupt := true,
                activeProcesses := max 0 (s.activeProcesses + 1 - 1) }, min ms tStop)
    | none =>
      ({ s with activeProcesses := max 0 (s.activeProcesses + 1 - 1) }, ms)

/-- C10: if the cancellation flag is already set when `sleep(ms)` is
called, `sleep` returns immediately (elapsed wait 0) without incrementing
or decrementing `activeProcesses`; hence once stop has been requested
every suspension point built on `sleep` (inter-swap delay, inter-account
delay, the confirmation monitor poll wait) completes without delay. -/
theorem sleep_C10 (ms : Nat) (stopDuringAt : Option Nat) (s : SleepCtx)
    (h : s.shouldStop = true) :
    sleep ms stopDuringAt s = ({ s with hasLoggedSleepInterrupt := true }, 0) ∧
    (sleep ms stopDuringAt s).1.activeProcesses = s.activeProcesses ∧
    (sleep ms stopDuringAt s).2 = 0 := by
  simp [sleep, h]

/-- Witness for C10 at `ms = 5000` with counter 3. -/
theorem sleep_C10_witness :
    sleep 5000 none ⟨true, 3, false⟩ = (⟨true, 3, true⟩, 0) ∧
    (sleep 5000 none ⟨true, 3, false⟩).1.activeProcesses = 3 ∧
    (sleep 5000 none ⟨true, 3, false⟩).2 = 0 :=
  sleep_C10 5000 none ⟨true, 3, false⟩ (by decide)

/-- Transaction receipt shape, as far as the source inspects it:
`receipt.hash` truthiness, `receipt.status`, `receipt.blockNumber`,
`receipt.effectiveGasPrice` and `receipt.gasUsed`. -/
structure TxReceipt where
  hashValid : Bool
  status : Int
  blockNumber : Option Nat
  effectiveGasPrice : Option Int
  gasUsed : Int
deriving DecidableEq, Repr

/-- JS truthiness of an optional numeric field (absent and 0 are falsy). -/
def jsTruthyOptNat : Option Nat → Bool
  | some v => v != 0
  | none => false

/-- Embedding of `monitorTransaction(provider, txHash, timeoutMs)`.
`receiptAt e` is the receipt the provider returns for the poll happening
at elapsed time `e`; the loop checks `elapsed > timeoutMs` at the top,
polls, returns a receipt that has a (truthy) block number, and otherwise
suspends 5000 ms before the next iteration (no stop request arrives while
monitoring, so each suspension is the full poll interval). The extra fuel
argument only makes the recursion structural; the theorems supply enough
fuel for the loop to exit by itself. On error the elapsed time at the
throw is reported alongside the message. -/
def monitorTransaction (receiptAt : Nat → Option TxReceipt) (timeoutMs : Nat) :
    Nat → Nat → Except (String × Nat) (TxReceipt × Nat)
  | 0, elapsed => .error ("monitor fuel exhausted", elapsed)
  | fuel + 1, elapsed =>
    if timeoutMs < elapsed then .error ("Transaction confirmation timed out", elapsed)
    else
      match receiptAt elapsed with
      | some receipt =>
        if jsTruthyOptNat receipt.blockNumber then .ok (receipt, elapsed)
        else monitorTransaction receiptAt timeoutMs fuel (elapsed + 5000)
      | none => monitorTransaction receiptAt timeoutMs fuel (elapsed + 5000)

/-- C4, counterexample: with a receipt source that never yields a receipt
and `timeoutMs = 1000`, the monitor fails with the timeout error at
elapsed time 5000 ms, not within 1000 to 1200 ms as claimed: the poll
interval is 5000 ms, so the first timeout check that can fire happens one
full poll interval after entry. -/
theorem monitorTransaction_C4_counterexample :
    monitorTransaction (fun _ => none) 1000 10 0 =
      .error ("Transaction confirmation timed out", 5000) ∧
    ¬ (5000 ≤ 1200) := by
  exact ⟨rfl, by decide⟩

/-- C4 (amended): with a receipt source that never yields a receipt and
`timeoutMs = 1000`, `monitorTransaction` fails with the timeout error at
5000 ms of entry: past the timeout, but only within the timeout plus one
full 5000 ms poll interval (elapsed time measured from first entry, each
unsuccessful poll followed by a fixed 5000 ms suspension). -/
theorem monitorTransaction_C4_amended (fuel : Nat) :
    monitorTransaction (fun _ => none) 1000 (fuel + 2) 0 =
      .error ("Transaction confirmation timed out", 5000) ∧
    1000 < 5000 ∧ 5000 ≤ 1000 + 5000 := by
  exact ⟨rfl, by decide, by decide⟩

/-- The process-wide lifecycle state: the flags, the in-flight counter,
whether the next-cycle timer (`dailyActivityInterval`) is pending, whether
a 1-second stop checker (`stopCheckInterval`, value = its period in ms) is
armed, and the log lines emitted so far (most recent first). -/
structure LifecycleState where
  shouldStop : Bool
  activityRunning : Bool
  isCycleRunning : Bool
  hasLoggedSleepInterrupt : Bool
  activeProcesses : Int
  dailyActivityIntervalSet : Bool
  stopCheckIntervalMs : Option Nat
  logs : List String
deriving DecidableEq, Repr

/-- The events that touch the lifecycle state:
`sleepEnter`/`sleepExit` are the increment at the top of `sleep` and the
`finally` decrement; `activityStart` is the entry of `runDailyActivity`;
`stopSelect` is the menu "Stop Activity" handler; `stopTick` is one firing
of an armed 1-second stop checker; `cycleEnd` is the tail of
`runDailyActivity` (the next-cycle scheduling plus the `finally` block). -/
inductive LifeEvent
  | sleepEnter
  | sleepExit
  | activityStart
  | stopSelect
  | stopTick
  | cycleEnd
deriving DecidableEq, Repr

/-- One step of the lifecycle controller, per event, translated from the
corresponding source fragments (`sleep`, `runDailyActivity` entry and
`finally`, the menu "Stop Activity" case, and the bodies of the armed
`setInterval(..., 1000)` checkers; the checker of the menu handler and the
one of the `finally` block behave alike, the `finally` variant also clears
the next-cycle timer on teardown). -/
def lifeStep : LifeEvent → LifecycleState → LifecycleState
  | .sleepEnter, s =>
    if s.shouldStop then { s with hasLoggedSleepInterrupt := true }
    else { s with activeProcesses := s.activeProcesses + 1 }
  | .sleepExit, s =>
    { s with activeProcesses := max 0 (s.activeProcesses - 1) }
  | .activityStart, s =>
    { s with activityRunning := true, isCycleRunning := true, shouldStop := false,
             hasLoggedSleepInterrupt := false, activeProcesses := max 0 s.activeProcesses }
  | .stopSelect, s =>
    let s1 : LifecycleState :=
      { s with shouldStop := true, dailyActivityIntervalSet := false,
               logs := "Stopping daily activity. Please wait for ongoing process to complete." :: s.logs }
    if s1.activeProcesses ≤ 0 then
      { s1 with activityRunning := false, isCycleRunning := false, shouldStop := false,
                hasLoggedSleepInterrupt := false,
                logs := "Daily activity stopped successfully." :: s1.logs }
    else
      { s1 with stopCheckIntervalMs := some 1000 }
  | .stopTick, s =>
    match s.stopCheckIntervalMs with
    | none => s
    | some _ =>
      if s.activeProcesses ≤ 0 then
        { s with stopCheckIntervalMs := none, dailyActivityIntervalSet := false,
                 activityRunning := false, isCycleRunning := false, shouldStop := false,
                 hasLoggedSleepInterrupt := false, activeProcesses := 0,
                 logs := "Daily activity stopped successfully." :: s.logs }
      else
        { s with logs := ("Waiting for " ++ toString s.activeProcesses
                            ++ " process(es) to complete...") :: s.logs }
  | .cycleEnd, s =>
    let s0 : LifecycleState :=
      if s.shouldStop = false ∧ s.activeProcesses ≤ 0 then
        { s with dailyActivityIntervalSet := true }
      else s
    if s0.shouldStop then
      if s0.activeProcesses ≤ 0 then
        { s0 with dailyActivityIntervalSet := false, activityRunning := false,
                  isCycleRunning := false, shouldStop := false,
                  hasLoggedSleepInterrupt := false, activeProcesses := 0,
                  logs := "Daily activity stopped successfully." :: s0.logs }
      else
        { s0 with stopCheckIntervalMs := some 1000 }
    else
      { s0 with activityRunning := false,
                isCycleRunning := decide (0 < s0.activeProcesses) || s0.dailyActivityIntervalSet }

/-- C2: (i) any step that ends the cycle (clears `isCycleRunning`, i.e.
performs teardown towards Idle) can only happen from a state whose
in-flight counter has drained to zero or below, and that step also leaves
the running flag and the cancellation flag cleared; (ii) no event ever
drives the in-flight counter negative; (iii) when a stop is requested
while the counter is nonzero, teardown is deferred: the flags stay set and
a checker with a fixed 1000 ms period is armed; (iv) a checker tick that
still sees a nonzero counter only emits the progress log line and changes
nothing else. -/
theorem lifecycle_C2 (e : LifeEvent) (s : LifecycleState) :
    (s.isCycleRunning = true → (lifeStep e s).isCycleRunning = false →
      s.activeProcesses ≤ 0 ∧ (lifeStep e s).activityRunning = false ∧
      (lifeStep e s).shouldStop = false) ∧
    (0 ≤ s.activeProcesses → 0 ≤ (lifeStep e s).activeProcesses) ∧
    (0 < s.activeProcesses →
      lifeStep .stopSelect s =
        { s with shouldStop := true, dailyActivityIntervalSet := false,
                 stopCheckIntervalMs := some 1000,
                 logs := "Stopping daily activity. Please wait for ongoing process to complete." :: s.logs }) ∧
    (0 < s.activeProcesses → s.stopCheckIntervalMs = some 1000 →
      lifeStep .stopTick s =
        { s with logs := ("Waiting for " ++ toString s.activeProcesses
                            ++ " process(es) to complete...") :: s.logs }) := by
  obtain ⟨ss, ar, icr, hl, ap, das, sci, lg⟩ := s
  refine ⟨?_, ?_, ?_, ?_⟩
  · intro hrun hdown
    rcases sci with _ | n <;> cases ss <;> cases e <;>
      simp only [lifeStep] at hdown ⊢ <;>
      (try split_ifs at hdown ⊢) <;>
      (try simp_all)
  · intro hnn
    rcases sci with _ | n <;> cases ss <;> cases e <;>
      simp only [lifeStep] <;>
      (try split_ifs) <;>
      (try simp_all) <;>
      omega
  · intro hpos
    have hpos2 : 0 < ap := hpos
    have hneg : ¬ (ap ≤ 0) := by omega
    simp [lifeStep, hneg]
  · intro hpos hsome
    have hpos2 : 0 < ap := hpos
    have hsome2 : sci = some 1000 := hsome
    have hneg : ¬ (ap ≤ 0) := by omega
    subst hsome2
    simp [lifeStep, hneg]

/-- Witness for C2: a drained state with an armed checker tears down on
the tick; a state with one in-flight process defers and logs. -/
theorem lifecycle_C2_witness :
    ((lifeStep .stopTick ⟨true, true, true, false, 0, false, some 1000, []⟩).isCycleRunning = false →
      (0 : Int) ≤ 0 ∧
      (lifeStep .stopTick ⟨true, true, true, false, 0, false, some 1000, []⟩).activityRunning = false ∧
      (lifeStep .stopTick ⟨true, true, true, false, 0, false, some 1000, []⟩).shouldStop = false) ∧
    0 ≤ (lifeStep .sleepExit ⟨false, true, true, false, 0, false, none, []⟩).activeProcesses ∧
    lifeStep .stopSelect ⟨false, true, true, false, 1, true, none, []⟩ =
      ⟨true, true, true, false, 1, false, some 1000,
        ["Stopping daily activity. Please wait for ongoing process to complete."]⟩ ∧
    lifeStep .stopTick ⟨true, true, true, false, 1, false, some 1000, []⟩ =
      ⟨true, true, true, false, 1, false, some 1000,
        ["Waiting for 1 process(es) to complete..."]⟩ := by
  refine ⟨?_, ?_, ?_, ?_⟩
  · intro h
    exact (lifecycle_C2 .stopTick ⟨true, true, true, false, 0, false, some 1000, []⟩).1 rfl h
  · exact (lifecycle_C2 .sleepExit ⟨false, true, true, false, 0, false, none, []⟩).2.1 (by decide)
  · exact (lifecycle_C2 .stopSelect ⟨false, true, true, false, 1, true, none, []⟩).2.2.1 (by decide)
  · exact (lifecycle_C2 .stopTick ⟨true, true, true, false, 1, false, some 1000, []⟩).2.2.2
      (by decide) rfl

/-- The JS `includes` check on an error message, used for
`error.message.includes("nonce")`: `leadsWith s pat` is "pat begins s". -/
def leadsWith : List Char → List Char → Bool
  | _, [] => true
  | [], _ :: _ => false
  | a :: as, b :: bs => a = b && leadsWith as bs

/-- Substring occurrence check over character lists. -/
def hasSub : List Char → List Char → Bool
  | [], pat => pat.isEmpty
  | a :: as, pat => leadsWith (a :: as) pat || hasSub as pat

/-- JS `s.includes(pat)`. -/
def jsIncludes (s pat : String) : Bool :=
  hasSub s.data pat.data

/-- JS truthiness of an optional BigInt field (absent and `0n` are falsy). -/
def jsTruthyOptInt : Option Int → Bool
  | some v => v != 0
  | none => false

/-- The fee inputs `provider.getFeeData()` would supply, or a fetch
failure. -/
structure FeeData where
  fetchOk : Bool
  maxFeePerGas : Option Int
  maxPriorityFeePerGas : Option Int
  gasPrice : Option Int
deriving DecidableEq, Repr

/-- The `params` object built by `getFeeParams` (`type` rendered
`txType`). -/
structure FeeParams where
  maxFeePerGas : Option Int
  maxPriorityFeePerGas : Option Int
  gasPrice : Option Int
  txType : Nat
deriving DecidableEq, Repr

/-- `ethers.parseUnits("1", "gwei")`. -/
def oneGwei : Int := 1000000000

/-- Embedding of `getFeeParams(provider)`: modern dual-fee scheme when
both figures are truthy, otherwise the legacy single gas price with the
1 gwei fallback; a fetch failure also degrades to the 1 gwei legacy
default and never fails outward. -/
def getFeeParams (fd : FeeData) : FeeParams :=
  if fd.fetchOk = false then
    { maxFeePerGas := none, maxPriorityFeePerGas := none, gasPrice := some oneGwei, txType := 0 }
  else if jsTruthyOptInt fd.maxFeePerGas && jsTruthyOptInt fd.maxPriorityFeePerGas then
    { maxFeePerGas := fd.maxFeePerGas, maxPriorityFeePerGas := fd.maxPriorityFeePerGas,
      gasPrice := none, txType := 2 }
  else
    { maxFeePerGas := none, maxPriorityFeePerGas := none,
      gasPrice := some (match fd.gasPrice with
        | some g => if g = 0 then oneGwei else g
        | none => oneGwei),
      txType := 0 }

/-- The fields of the quote response that `performSwap` reads
(`quote.estimate.approvalAddress`, `quote.transactionRequest.gasLimit`,
`quote.estimate.toAmount`; the opaque calldata is not modelled). -/
structure Quote where
  approvalAddress : String
  gasLimit : Int
  toAmount : String
deriving DecidableEq, Repr

/-- The external world as seen by one `performSwap` call: the values each
outward call would produce, in program order. -/
structure SwapEnv where
  tokenBalance : Int
  quoteResult : Except String Quote
  feeData : FeeData
  allowance : Int
  approvalResult : Except String Unit
  nativeBalance : Int
  pendingNonce : Int
  submitResult : Except String String
  receiptResult : Except String TxReceipt
deriving Repr

/-- The observable outward calls of one `performSwap` run. -/
inductive SwapEffect
  | quoteRequest
  | nonceAlloc
  | approvalSubmit
  | txSubmit
deriving DecidableEq, Repr

/-- Result of one `performSwap` run: the outcome, the nonce tracker it
leaves behind, and the outward calls it made, in order. -/
structure SwapOutcome where
  result : Except String Unit
  tracker : NonceTracker
  effects : List SwapEffect
deriving Repr

/-- The insufficient-balance error text (the formatted numbers of the
source message are omitted). -/
def insufficientBalanceMsg (direction : SwapDirection) : String :=
  "Insufficient " ++ direction.fromSym ++ " balance"

/-- Embedding of `checkAndApproveToken`: when the allowance is below the
required amount, allocate a nonce and submit an approval transaction.
Returns the outcome, the tracker after the step and the outward calls. -/
def checkAndApproveToken (shouldStop isValidAddress : Bool) (env : SwapEnv) (address : String)
    (amountIn : Int) (t : NonceTracker) : Except String Bool × NonceTracker × List SwapEffect :=
  if env.allowance < amountIn then
    match getNextNonce shouldStop isValidAddress env.pendingNonce address t with
    | .error e => (.error e, t, [.nonceAlloc])
    | .ok (_nonce, t1) =>
      match env.approvalResult with
      | .error e => (.error e, t1, [.nonceAlloc, .approvalSubmit])
      | .ok _ => (.ok true, t1, [.nonceAlloc, .approvalSubmit])
  else (.ok false, t, [])

/-- `txParams.gasPrice ? gasPrice * gasLimit : maxFeePerGas * gasLimit`. -/
def estimatedGasCost (feeParams : FeeParams) (gasLimit : Int) : Int :=
  if jsTruthyOptInt feeParams.gasPrice then feeParams.gasPrice.getD 0 * gasLimit
  else feeParams.maxFeePerGas.getD 0 * gasLimit

/-- Tail of `performSwap` from the gas-budget check on: check the native
balance against the estimated fee, allocate the swap nonce, submit; on a
submission failure whose message contains "nonce" delete the cached nonce
record for the key before re-raising; then monitor the receipt, rejecting
a receipt without a hash and a receipt with status 0. -/
def swapAfterApproval (shouldStop isValidAddress : Bool) (env : SwapEnv) (quote : Quote)
    (feeParams : FeeParams) (address : String) (t : NonceTracker)
    (effs : List SwapEffect) : SwapOutcome :=
  if env.nativeBalance < estimatedGasCost feeParams quote.gasLimit then
    ⟨.error "Insufficient POL balance for gas", t, effs⟩
  else
    match getNextNonce shouldStop isValidAddress env.pendingNonce address t with
    | .error e => ⟨.error e, t, effs ++ [.nonceAlloc]⟩
    | .ok (_nonce, t1) =>
      match env.submitResult with
      | .error msg =>
        let t2 := if jsIncludes msg "nonce" then trackerDelete t1 (nonceKeyFor address) else t1
        ⟨.error msg, t2, effs ++ [.nonceAlloc, .txSubmit]⟩
      | .ok _hash =>
        match env.receiptResult with
        | .error e => ⟨.error e, t1, effs ++ [.nonceAlloc, .txSubmit]⟩
        | .ok receipt =>
          if receipt.hashValid = false then
            ⟨.error "Invalid transaction receipt", t1, effs ++ [.nonceAlloc, .txSubmit]⟩
          else if receipt.status = 0 then
            ⟨.error "Transaction reverted", t1, effs ++ [.nonceAlloc, .txSubmit]⟩
          else ⟨.ok (), t1, effs ++ [.nonceAlloc, .txSubmit]⟩

/-- Embedding of `performSwap(wallet, direction, amount, proxyUrl)` up to
the confirmation step (the closing best-effort usage report cannot change
the outcome and is not modelled). Steps in source order: source-token
balance check, quote request, fee parameter selection, allowance check
with optional approval, gas-budget check, swap nonce allocation,
submission, receipt checks. -/
def performSwap (shouldStop isValidAddress : Bool) (env : SwapEnv) (direction : SwapDirection)
    (amountIn : Int) (address : String) (t : NonceTracker) : SwapOutcome :=
  if env.tokenBalance < amountIn then
    ⟨.error (insufficientBalanceMsg direction), t, []⟩
  else
    match env.quoteResult with
    | .error e => ⟨.error e, t, [.quoteRequest]⟩
    | .ok quote =>
      let feeParams := getFeeParams env.feeData
      if direction.tokenIn != POL_ADDRESS then
        match checkAndApproveToken shouldStop isValidAddress env address amountIn t with
        | (.error e, t1, effs) => ⟨.error e, t1, .quoteRequest :: effs⟩
        | (.ok _, t1, effs) =>
          swapAfterApproval shouldStop isValidAddress env quote feeParams address t1
            (.quoteRequest :: effs)
      else
        swapAfterApproval shouldStop isValidAddress env quote feeParams address t [.quoteRequest]

/-- C5: whenever the source-token balance is strictly below the requested
amount, `performSwap` aborts with the insufficient-balance error before
any outward call: the effect list is empty (no quote request, no
approval, no nonce allocation, no submission) and the nonce tracker is
returned unchanged. -/
theorem performSwap_C5_insufficient_balance (shouldStop isValidAddress : Bool)
    (env : SwapEnv) (direction : SwapDirection) (amountIn : Int) (address : String)
    (t : NonceTracker) (h : env.tokenBalance < amountIn) :
    performSwap shouldStop isValidAddress env direction amountIn address t =
      ⟨.error (insufficientBalanceMsg direction), t, []⟩ := by
  simp [performSwap, h]

/-- Witness for C5: balance 5.0 USDC (5000000 base units) against a
requested 6.0 (6000000 base units). -/
theorem performSwap_C5_witness :
    performSwap false true
      { tokenBalance := 5000000, quoteResult := .error "unused",
        feeData := ⟨true, none, none, some 30⟩, allowance := 0,
        approvalResult := .ok (), nativeBalance := 0, pendingNonce := 0,
        submitResult := .error "unused", receiptResult := .error "unused" }
      (swapDirections[0]!) 6000000 "0xabc" [] =
      ⟨.error (insufficientBalanceMsg (swapDirections[0]!)), [], []⟩ :=
  performSwap_C5_insufficient_balance false true _ (swapDirections[0]!) 6000000 "0xabc" []
    (by decide)

/-- C3: when `performSwap` reaches submission (sufficient balance, quote
delivered, sufficient allowance, sufficient gas budget) and the
submission fails, the run re-raises that error; if the error message
contains "nonce" the cached record for the (chain, address) key is
deleted, so the next `getNextNonce` call for the key returns exactly the
chain pending count (default last = p-1); if the message is not
nonce-tagged the tracker is left exactly as the swap nonce allocation
wrote it. -/
theorem performSwap_C3_nonce_reset (env : SwapEnv) (direction : SwapDirection)
    (amountIn : Int) (address : String) (t : NonceTracker) (q : Quote) (msg : String)
    (hbal : ¬ env.tokenBalance < amountIn)
    (hquote : env.quoteResult = .ok q)
    (htok : direction.tokenIn ≠ POL_ADDRESS)
    (hallow : ¬ env.allowance < amountIn)
    (hgas : ¬ env.nativeBalance < estimatedGasCost (getFeeParams env.feeData) q.gasLimit)
    (hsub : env.submitResult = .error msg) :
    (performSwap false true env direction amountIn address t).result = .error msg ∧
    (jsIncludes msg "nonce" = true →
      trackerGet (performSwap false true env direction amountIn address t).tracker
          (nonceKeyFor address) = none ∧
      ∀ p2 : Int, getNextNonce false true p2 address
          (performSwap false true env direction amountIn address t).tracker =
        .ok (p2, trackerSet (performSwap false true env direction amountIn address t).tracker
              (nonceKeyFor address) p2)) ∧
    (jsIncludes msg "nonce" = false →
      (performSwap false true env direction amountIn address t).tracker =
        trackerSet t (nonceKeyFor address)
          (nextNonceValue env.pendingNonce (trackerGet t (nonceKeyFor address)))) := by
  have hout : performSwap false true env direction amountIn address t =
      ⟨.error msg,
        (if jsIncludes msg "nonce" then
          trackerDelete (trackerSet t (nonceKeyFor address)
            (nextNonceValue env.pendingNonce (trackerGet t (nonceKeyFor address))))
            (nonceKeyFor address)
        else
          trackerSet t (nonceKeyFor address)
            (nextNonceValue env.pendingNonce (trackerGet t (nonceKeyFor address)))),
        [.quoteRequest, .nonceAlloc, .txSubmit]⟩ := by
    simp [performSwap, hbal, hquote, htok, checkAndApproveToken, hallow,
      swapAfterApproval, hgas, getNextNonce, hsub]
  rw [hout]
  refine ⟨rfl, ?_, ?_⟩
  · intro hyes
    simp only [hyes, if_true]
    constructor
    · exact trackerGet_delete _ _
    · intro p2
      have hnone : trackerGet (trackerDelete (trackerSet t (nonceKeyFor address)
          (nextNonceValue env.pendingNonce (trackerGet t (nonceKeyFor address))))
          (nonceKeyFor address)) (nonceKeyFor address) = none := trackerGet_delete _ _
      simp only [getNextNonce, Bool.false_eq_true, if_false, Bool.true_eq_false, hnone,
        nextNonceValue_none]
  · intro hno
    simp [hno]

/-- Witness for C3: a run whose submission fails with "nonce has already
been used"; the tracker record for the key is gone afterwards and the
next allocation returns the fresh pending count 9. -/
theorem performSwap_C3_witness :
    (performSwap false true
      { tokenBalance := 10000000, quoteResult := .ok ⟨"0xspender", 100, "999"⟩,
        feeData := ⟨true, none, none, some 30⟩, allowance := 20000000,
        approvalResult := .ok (), nativeBalance := 1000000000000, pendingNonce := 7,
        submitResult := .error "nonce has already been used",
        receiptResult := .error "unused" }
      (swapDirections[0]!) 6000000 "0xabc" [(nonceKeyFor "0xabc", 3)]).result =
        .error "nonce has already been used" ∧
    trackerGet (performSwap false true
      { tokenBalance := 10000000, quoteResult := .ok ⟨"0xspender", 100, "999"⟩,
        feeData := ⟨true, none, none, some 30⟩, allowance := 20000000,
        approvalResult := .ok (), nativeBalance := 1000000000000, pendingNonce := 7,
        submitResult := .error "nonce has already been used",
        receiptResult := .error "unused" }
      (swapDirections[0]!) 6000000 "0xabc" [(nonceKeyFor "0xabc", 3)]).tracker
      (nonceKeyFor "0xabc") = none := by
  have h := performSwap_C3_nonce_reset
    { tokenBalance := 10000000, quoteResult := .ok ⟨"0xspender", 100, "999"⟩,
      feeData := ⟨true, none, none, some 30⟩, allowance := 20000000,
      approvalResult := .ok (), nativeBalance := 1000000000000, pendingNonce := 7,
      submitResult := .error "nonce has already been used",
      receiptResult := .error "unused" }
    (swapDirections[0]!) 6000000 "0xabc" [(nonceKeyFor "0xabc", 3)]
    ⟨"0xspender", 100, "999"⟩ "nonce has already been used"
    (by decide) rfl (by decide) (by decide) (by decide) rfl
  exact ⟨h.1, (h.2.1 (by decide)).1⟩

/-- An error thrown by `makeApiCall` or by axios, as far as
`performCheckIn` inspects it: the message, and the optional HTTP response
status and response body message (`error.response.status`,
`error.response.data.message`). -/
structure ApiError where
  message : String
  responseStatus : Option Nat
  responseMessage : Option String
deriving DecidableEq, Repr

/-- The observable outcome of `performCheckIn` (which log line the run
ends on). -/
inductive CheckInResult
  | alreadyCheckedInToday
  | checkInSuccess (points : Int)
  | checkInFailedLogged (message : String)
deriving DecidableEq, Repr

/-- The catch block of `performCheckIn`: the specific HTTP 400 response
with body message "Already checked in today" is treated as the no-op
case; every other error is logged as a failure. Nothing is re-thrown. -/
def checkInCatch (e : ApiError) : CheckInResult :=
  if e.responseStatus = some 400 ∧ e.responseMessage = some "Already checked in today" then
    .alreadyCheckedInToday
  else .checkInFailedLogged e.message

/-- The try block of `performCheckIn`: fetch the check-in status (the
fetched last check-in timestamp is pre-rendered through `toDateString()`
as `lastCheckIn`, `none` when the field was absent), compare with the
date string of now, and submit the check-in when the day differs or no
last check-in exists. Errors of either call propagate to the catch. -/
def performCheckInBody (statusResult : Except ApiError (Option String))
    (todayDateStr : String) (submitResult : Except ApiError Int) :
    Except ApiError CheckInResult :=
  match statusResult with
  | .error e => .error e
  | .ok lastCheckIn =>
    match lastCheckIn with
    | some lastDateStr =>
      if lastDateStr = todayDateStr then .ok .alreadyCheckedInToday
      else
        match submitResult with
        | .error e => .error e
        | .ok points => .ok (.checkInSuccess points)
    | none =>
      match submitResult with
      | .error e => .error e
      | .ok points => .ok (.checkInSuccess points)

/-- Embedding of `performCheckIn(walletAddress, proxyUrl)`: the whole body
runs inside try/catch, so the function always returns an outcome and
never propagates an exception. -/
def performCheckIn (statusResult : Except ApiError (Option String))
    (todayDateStr : String) (submitResult : Except ApiError Int) : CheckInResult :=
  match performCheckInBody statusResult todayDateStr submitResult with
  | .ok r => r
  | .error e => checkInCatch e

/-- Whether a run of `performCheckIn` submits a check-in request: only
when the status fetch succeeded and the last check-in day (if any)
differs from today. -/
def checkInSubmits (statusResult : Except ApiError (Option String))
    (todayDateStr : String) : Bool :=
  match statusResult with
  | .error _ => false
  | .ok (some lastDateStr) => lastDateStr != todayDateStr
  | .ok none => true

/-- C8: (i) when the fetched last check-in falls on the same calendar day
as now (equal `toDateString()` renderings in the process-local timezone),
`performCheckIn` is a no-op: it reports the already-checked-in outcome
and submits no check-in request; (ii) when the submission instead fails
with the specific HTTP 400 "Already checked in today" response, the
outcome is the same already-checked-in case, not a failure; (iii) every
error of the body is absorbed by the catch, so `performCheckIn` never
propagates an exception to its caller. -/
theorem performCheckIn_C8 (statusResult : Except ApiError (Option String))
    (todayDateStr : String) (submitResult : Except ApiError Int) :
    (∀ lastDateStr, statusResult = .ok (some lastDateStr) → lastDateStr = todayDateStr →
      performCheckIn statusResult todayDateStr submitResult = .alreadyCheckedInToday ∧
      checkInSubmits statusResult todayDateStr = false) ∧
    (∀ e : ApiError, submitResult = .error e → e.responseStatus = some 400 →
      e.responseMessage = some "Already checked in today" →
      checkInSubmits statusResult todayDateStr = true →
      performCheckIn statusResult todayDateStr submitResult = .alreadyCheckedInToday) ∧
    (∀ e : ApiError, performCheckInBody statusResult todayDateStr submitResult = .error e →
      performCheckIn statusResult todayDateStr submitResult = checkInCatch e) := by
  refine ⟨?_, ?_, ?_⟩
  · intro lastDateStr hstat hsame
    subst hstat
    subst hsame
    constructor
    · simp [performCheckIn, performCheckInBody]
    · simp [checkInSubmits]
  · intro e hsub h400 hmsgAlready hsubmits
    subst hsub
    rcases statusResult with eStat | lastCheckIn
    · simp [checkInSubmits] at hsubmits
    · rcases lastCheckIn with _ | lastDateStr
      · simp [performCheckIn, performCheckInBody, checkInCatch, h400, hmsgAlready]
      · have hne : lastDateStr ≠ todayDateStr := by
          simpa [checkInSubmits, bne_iff_ne] using hsubmits
        simp [performCheckIn, performCheckInBody, hne, checkInCatch, h400, hmsgAlready]
  · intro e herr
    simp [performCheckIn, herr]

/-- Witness for C8: a same-day status yields the no-op with no submission;
a race yielding the 400 already-checked-in response is also the no-op;
and a failing body is absorbed through the catch. -/
theorem performCheckIn_C8_witness :
    (performCheckIn (.ok (some "Mon Jan 05 2026")) "Mon Jan 05 2026" (.ok 5) =
        .alreadyCheckedInToday ∧
      checkInSubmits (.ok (some "Mon Jan 05 2026")) "Mon Jan 05 2026" = false) ∧
    performCheckIn (.ok (some "Sun Jan 04 2026")) "Mon Jan 05 2026"
        (.error ⟨"Request failed with status code 400", some 400,
          some "Already checked in today"⟩) = .alreadyCheckedInToday ∧
    performCheckIn (.error ⟨"network down", none, none⟩) "Mon Jan 05 2026" (.ok 5) =
      checkInCatch ⟨"network down", none, none⟩ := by
  refine ⟨?_, ?_, ?_⟩
  · exact (performCheckIn_C8 (.ok (some "Mon Jan 05 2026")) "Mon Jan 05 2026" (.ok 5)).1
      "Mon Jan 05 2026" rfl rfl
  · exact (performCheckIn_C8 (.ok (some "Sun Jan 04 2026")) "Mon Jan 05 2026"
      (.error ⟨"Request failed with status code 400", some 400,
        some "Already checked in today"⟩)).2.1
      ⟨"Request failed with status code 400", some 400, some "Already checked in today"⟩
      rfl rfl rfl (by decide)
  · exact (performCheckIn_C8 (.error ⟨"network down", none, none⟩) "Mon Jan 05 2026"
      (.ok 5)).2.2 ⟨"network down", none, none⟩ rfl

/-- The runtime configuration object `dailyActivityConfig`. The nested
ranges are flattened into min/max fields. Numeric values are `Rat`:
the source only ever stores finite decimal numbers here, and JSON
stringify followed by parse is value-exact on finite numbers. -/
structure DailyActivityConfig where
  swapRepetitions : Rat
  usdcSwapRangeMin : Rat
  usdcSwapRangeMax : Rat
  usdtSwapRangeMin : Rat
  usdtSwapRangeMax : Rat
  loopHours : Rat
deriving DecidableEq, Repr

/-- The parsed content of `config.json` as `loadConfig` reads it: each
field is optional because the JSON object may lack it (then
`Number(undefined)` is NaN, which is falsy). -/
structure StoredConfig where
  swapRepetitions : Option Rat
  usdcSwapRangeMin : Option Rat
  usdcSwapRangeMax : Option Rat
  usdtSwapRangeMin : Option Rat
  usdtSwapRangeMax : Option Rat
  loopHours : Option Rat
deriving DecidableEq, Repr

/-- The pattern `Number(x) || d` of `loadConfig`: an absent field (NaN)
and the value 0 are falsy and give the default. -/
def jsNumberOr (v : Option Rat) (fallback : Rat) : Rat :=
  match v with
  | some x => if x = 0 then fallback else x
  | none => fallback

/-- Embedding of `saveConfig()`: `JSON.stringify(dailyActivityConfig)`
writes every field. -/
def saveConfig (c : DailyActivityConfig) : StoredConfig :=
  { swapRepetitions := some c.swapRepetitions,
    usdcSwapRangeMin := some c.usdcSwapRangeMin,
    usdcSwapRangeMax := some c.usdcSwapRangeMax,
    usdtSwapRangeMin := some c.usdtSwapRangeMin,
    usdtSwapRangeMax := some c.usdtSwapRangeMax,
    loopHours := some c.loopHours }

/-- Embedding of `loadConfig()`: with no config file the current (default)
configuration is kept; otherwise every field is taken from the file with
the `Number(...) || default` fallback per field. -/
def loadConfig (stored : Option StoredConfig) (current : DailyActivityConfig) :
    DailyActivityConfig :=
  match stored with
  | none => current
  | some cfg =>
    { swapRepetitions := jsNumberOr cfg.swapRepetitions 1,
      usdcSwapRangeMin := jsNumberOr cfg.usdcSwapRangeMin 1,
      usdcSwapRangeMax := jsNumberOr cfg.usdcSwapRangeMax (11 / 10),
      usdtSwapRangeMin := jsNumberOr cfg.usdtSwapRangeMin 1,
      usdtSwapRangeMax := jsNumberOr cfg.usdtSwapRangeMax (7 / 5),
      loopHours := jsNumberOr cfg.loopHours 24 }

/-- C9: saving a configuration whose fields are all positive (finite)
numbers and then loading it restores exactly the same values for
`swapRepetitions`, both range bounds of each token, and `loopHours` -
regardless of the configuration in memory before the load. -/
theorem config_roundTrip_C9 (c current : DailyActivityConfig)
    (h1 : 0 < c.swapRepetitions) (h2 : 0 < c.usdcSwapRangeMin)
    (h3 : 0 < c.usdcSwapRangeMax) (h4 : 0 < c.usdtSwapRangeMin)
    (h5 : 0 < c.usdtSwapRangeMax) (h6 : 0 < c.loopHours) :
    loadConfig (some (saveConfig c)) current = c := by
  obtain ⟨a, b, d, e, f, g⟩ := c
  simp only at h1 h2 h3 h4 h5 h6
  simp [loadConfig, saveConfig, jsNumberOr, ne_of_gt h1, ne_of_gt h2, ne_of_gt h3,
    ne_of_gt h4, ne_of_gt h5, ne_of_gt h6]

/-- Witness for C9 at the spec example `swapRepetitions = 2`,
`loopHours = 12` and the default ranges. -/
theorem config_roundTrip_C9_witness :
    loadConfig (some (saveConfig ⟨2, 1, 11 / 10, 1, 7 / 5, 12⟩))
      ⟨1, 1, 11 / 10, 1, 7 / 5, 24⟩ = ⟨2, 1, 11 / 10, 1, 7 / 5, 12⟩ :=
  config_roundTrip_C9 ⟨2, 1, 11 / 10, 1, 7 / 5, 12⟩ ⟨1, 1, 11 / 10, 1, 7 / 5, 24⟩
    (by norm_num) (by norm_num) (by norm_num) (by norm_num) (by norm_num) (by norm_num)

/-- One observable action of the cycle scheduler loops. -/
inductive CycleLog
  | checkInDone (account : Nat)
  | swapOk (account rep : Nat) (dir : SwapDirection)
  | swapFailed (account rep : Nat) (dir : SwapDirection) (message : String)
deriving DecidableEq, Repr

/-- Embedding of the inner repetition loop of `runDailyActivity`:
`for (swapCount = 0; swapCount < swapRepetitions && !shouldStop;
swapCount++)`, rendered with the count of remaining repetitions as the
first (structural) argument. Each iteration picks
`swapDirections[directionIndex % swapDirections.length]`, runs the swap
through try/catch (`outcome accountIndex swapCount` is what
`performSwap` would do there; an error is caught and logged as a failed
swap) and increments `directionIndex`. The cancellation flag is constant
in this model: the claims settled on it concern runs without a stop
request. -/
def runSwapLoop (outcome : Nat → Nat → Except String Unit) (shouldStop : Bool)
    (accountIndex : Nat) : Nat → Nat → Nat → List CycleLog
  | 0, _, _ => []
  | remaining + 1, swapCount, directionIndex =>
    if shouldStop = false then
      (match outcome accountIndex swapCount with
       | .ok _ => CycleLog.swapOk accountIndex swapCount
           (swapDirections[directionIndex % swapDirections.length]!)
       | .error e => CycleLog.swapFailed accountIndex swapCount
           (swapDirections[directionIndex % swapDirections.length]!) e)
      :: runSwapLoop outcome shouldStop accountIndex remaining (swapCount + 1) (directionIndex + 1)
    else []

/-- Embedding of the account loop of `runDailyActivity`: for each account
(count of remaining accounts as the structural argument) run the check-in
step, then the repetition loop with `directionIndex` restarted at 0. -/
def runAccountsLoop (outcome : Nat → Nat → Except String Unit) (shouldStop : Bool)
    (reps : Nat) : Nat → Nat → List CycleLog
  | 0, _ => []
  | remaining + 1, accountIndex =>
    if shouldStop = false then
      CycleLog.checkInDone accountIndex
        :: runSwapLoop outcome shouldStop accountIndex reps 0 0
        ++ runAccountsLoop outcome shouldStop reps remaining (accountIndex + 1)
    else []

/-- Embedding of one full cycle of `runDailyActivity` over `numAccounts`
accounts with `swapRepetitions = reps` (the log of actions, in order). -/
def runDailyActivity (outcome : Nat → Nat → Except String Unit) (shouldStop : Bool)
    (numAccounts reps : Nat) : List CycleLog :=
  runAccountsLoop outcome shouldStop reps numAccounts 0

/-- The log entry the repetition loop produces for repetition `k` of
account `accountIndex` (with `directionIndex = k`, as both counters start
at 0 together and are incremented together). -/
def swapEntry (outcome : Nat → Nat → Except String Unit) (accountIndex k : Nat) : CycleLog :=
  match outcome accountIndex k with
  | .ok _ => .swapOk accountIndex k (swapDirections[k % swapDirections.length]!)
  | .error e => .swapFailed accountIndex k (swapDirections[k % swapDirections.length]!) e

/-- The (account, repetition) pair of a swap attempt log entry, successful
or failed. -/
def swapAttemptPair : CycleLog → Option (Nat × Nat)
  | .swapOk a k _ => some (a, k)
  | .swapFailed a k _ _ => some (a, k)
  | .checkInDone _ => none

/-- All swap attempts of a cycle log, in order. -/
def swapAttemptPairs (logs : List CycleLog) : List (Nat × Nat) :=
  logs.filterMap swapAttemptPair

/-- The direction of a swap attempt log entry when it belongs to the given
account. -/
def accountSwapDir (a : Nat) : CycleLog → Option SwapDirection
  | .swapOk a2 _ d => if a2 = a then some d else none
  | .swapFailed a2 _ d _ => if a2 = a then some d else none
  | .checkInDone _ => none

/-- The directions account `a` swaps in, in order, within a cycle log. -/
def accountSwapDirs (logs : List CycleLog) (a : Nat) : List SwapDirection :=
  logs.filterMap (accountSwapDir a)


theorem runSwapLoop_false_succ (outcome : Nat → Nat → Except String Unit)
    (accountIndex r j d : Nat) :
    runSwapLoop outcome false accountIndex (r + 1) j d =
      (match outcome accountIndex j with
       | .ok _ => CycleLog.swapOk accountIndex j
           (swapDirections[d % swapDirections.length]!)
       | .error e => CycleLog.swapFailed accountIndex j
           (swapDirections[d % swapDirections.length]!) e)
      :: runSwapLoop outcome false accountIndex r (j + 1) (d + 1) := by
  simp [runSwapLoop]

theorem runAccountsLoop_false_succ (outcome : Nat → Nat → Except String Unit)
    (reps m i : Nat) :
    runAccountsLoop outcome false reps (m + 1) i =
      CycleLog.checkInDone i
        :: runSwapLoop outcome false i reps 0 0
        ++ runAccountsLoop outcome false reps m (i + 1) := by
  simp [runAccountsLoop]

theorem runSwapLoop_eq (outcome : Nat → Nat → Except String Unit) (accountIndex : Nat) :
    ∀ (r j : Nat), runSwapLoop outcome false accountIndex r j j =
      (List.range' j r).map (swapEntry outcome accountIndex)
  | 0, _ => rfl
  | r + 1, j => by
    rw [runSwapLoop_false_succ, runSwapLoop_eq outcome accountIndex r (j + 1)]
    simp only [List.range', List.map_cons]
    cases h : outcome accountIndex j <;> simp [swapEntry, h]

theorem runAccountsLoop_eq (outcome : Nat → Nat → Except String Unit) (reps : Nat) :
    ∀ (m i : Nat), runAccountsLoop outcome false reps m i =
      (List.range' i m).flatMap
        (fun a => CycleLog.checkInDone a :: (List.range' 0 reps).map (swapEntry outcome a))
  | 0, _ => rfl
  | m + 1, i => by
    rw [runAccountsLoop_false_succ, runSwapLoop_eq outcome i reps 0,
        runAccountsLoop_eq outcome reps m (i + 1)]
    simp only [List.range', List.flatMap_cons, List.cons_append]

theorem swapAttemptPair_swapEntry (outcome : Nat → Nat → Except String Unit) (a k : Nat) :
    swapAttemptPair (swapEntry outcome a k) = some (a, k) := by
  cases h : outcome a k <;> simp [swapEntry, swapAttemptPair, h]

theorem swapAttemptPairs_map_swapEntry (outcome : Nat → Nat → Except String Unit)
    (a : Nat) (L : List Nat) :
    List.filterMap swapAttemptPair (L.map (swapEntry outcome a)) =
      L.map (fun k => (a, k)) := by
  induction L with
  | nil => rfl
  | cons k L ih =>
    simp only [List.map_cons, List.filterMap_cons, swapAttemptPair_swapEntry]
    exact congrArg _ ih

theorem accountSwapDir_swapEntry (outcome : Nat → Nat → Except String Unit) (a a2 k : Nat) :
    accountSwapDir a (swapEntry outcome a2 k) =
      if a2 = a then some (swapDirections[k % swapDirections.length]!) else none := by
  cases h : outcome a2 k <;> simp [swapEntry, accountSwapDir, h]

theorem accountSwapDirs_map_swapEntry (outcome : Nat → Nat → Except String Unit)
    (a a2 : Nat) (L : List Nat) :
    List.filterMap (accountSwapDir a) (L.map (swapEntry outcome a2)) =
      if a2 = a then L.map (fun k => swapDirections[k % swapDirections.length]!) else [] := by
  induction L with
  | nil => simp
  | cons k L ih =>
    simp only [List.map_cons, List.filterMap_cons, accountSwapDir_swapEntry]
    by_cases h : a2 = a <;> simp [h] at ih ⊢ <;> exact ih

theorem swapAttemptPairs_accounts (outcome : Nat → Nat → Except String Unit) (reps : Nat) :
    ∀ (m i : Nat), swapAttemptPairs (runAccountsLoop outcome false reps m i) =
      (List.range' i m).flatMap (fun a => (List.range' 0 reps).map (fun k => (a, k)))
  | 0, _ => rfl
  | m + 1, i => by
    rw [runAccountsLoop_false_succ, runSwapLoop_eq outcome i reps 0]
    simp only [swapAttemptPairs, List.filterMap_cons, swapAttemptPair,
      List.filterMap_append, swapAttemptPairs_map_swapEntry outcome i]
    have hrec := swapAttemptPairs_accounts outcome reps m (i + 1)
    simp only [swapAttemptPairs] at hrec
    rw [hrec]
    simp only [List.range', List.flatMap_cons]

theorem accountSwapDirs_accounts (outcome : Nat → Nat → Except String Unit)
    (reps a : Nat) :
    ∀ (m i : Nat), accountSwapDirs (runAccountsLoop outcome false reps m i) a =
      if a ∈ List.range' i m then
        (List.range' 0 reps).map (fun k => swapDirections[k % swapDirections.length]!)
      else []
  | 0, i => by simp [runAccountsLoop, accountSwapDirs]
  | m + 1, i => by
    rw [runAccountsLoop_false_succ, runSwapLoop_eq outcome i reps 0]
    simp only [accountSwapDirs, List.filterMap_cons, accountSwapDir,
      List.filterMap_append, accountSwapDirs_map_swapEntry outcome a i]
    have hrec := accountSwapDirs_accounts outcome reps a m (i + 1)
    simp only [accountSwapDirs] at hrec
    rw [hrec]
    by_cases h : i = a
    · subst h
      have hnot : i ∉ List.range' (i + 1) m := by
        rw [List.mem_range'_1]; omega
      simp [hnot, List.range']
    · have hne : ¬ (a = i) := fun hc => h hc.symm
      simp [h, hne, List.range', List.mem_cons]

/-- C6: in a cycle without a stop request, every swap failure is caught by
the per-swap try/catch of the scheduler and iteration continues: for every
outcome assignment (including arbitrarily failing swaps) the cycle visits
exactly the swap attempts (account 0..numAccounts-1) x (repetition
0..reps-1) in order, and a failed attempt appears in the log as a caught,
logged failure; no swap failure terminates the loops or escapes
`runDailyActivity` (which returns a complete log for every outcome
assignment). -/
theorem runDailyActivity_C6 (outcome : Nat → Nat → Except String Unit)
    (numAccounts reps : Nat) :
    swapAttemptPairs (runDailyActivity outcome false numAccounts reps) =
      (List.range numAccounts).flatMap
        (fun a => (List.range reps).map (fun k => (a, k))) ∧
    (∀ a k e, a < numAccounts → k < reps → outcome a k = .error e →
      CycleLog.swapFailed a k (swapDirections[k % swapDirections.length]!) e ∈
        runDailyActivity outcome false numAccounts reps) := by
  constructor
  · rw [List.range_eq_range' numAccounts, List.range_eq_range' reps, runDailyActivity,
      swapAttemptPairs_accounts outcome reps numAccounts 0]
  · intro a k e ha hk herr
    rw [runDailyActivity, runAccountsLoop_eq]
    apply List.mem_flatMap.mpr
    refine ⟨a, ?_, ?_⟩
    · rw [List.mem_range'_1]; omega
    · apply List.mem_cons.mpr
      right
      apply List.mem_map.mpr
      refine ⟨k, ?_, by simp [swapEntry, herr]⟩
      rw [List.mem_range'_1]; omega

/-- Witness for C6: with 2 accounts, 2 repetitions and every swap failing,
the failed attempt (1, 0) is still present in the log. -/
theorem runDailyActivity_C6_witness :
    CycleLog.swapFailed 1 0 (swapDirections[0 % swapDirections.length]!) "boom" ∈
      runDailyActivity (fun _ _ => .error "boom") false 2 2 :=
  (runDailyActivity_C6 (fun _ _ => .error "boom") 2 2).2 1 0 "boom"
    (by decide) (by decide) rfl

/-- C7: within each account the swap at repetition `k` uses direction
`swapDirections[k % 2]` (the direction index restarts at 0 for every
account and is incremented once per repetition, also on failures), so
with `swapRepetitions = 3` each account visits directions in the order
[d0, d1, d0]. -/
theorem runDailyActivity_C7 (outcome : Nat → Nat → Except String Unit)
    (numAccounts reps a : Nat) (ha : a < numAccounts) :
    accountSwapDirs (runDailyActivity outcome false numAccounts reps) a =
      (List.range reps).map (fun k => swapDirections[k % swapDirections.length]!) ∧
    accountSwapDirs (runDailyActivity outcome false numAccounts 3) a =
      [swapDirections[0]!, swapDirections[1]!, swapDirections[0]!] := by
  have hmem : a ∈ List.range' 0 numAccounts := by
    rw [List.mem_range'_1]; omega
  constructor
  · rw [List.range_eq_range' reps, runDailyActivity,
      accountSwapDirs_accounts outcome reps a numAccounts 0, if_pos hmem]
  · rw [runDailyActivity, accountSwapDirs_accounts outcome 3 a numAccounts 0, if_pos hmem]
    rfl

/-- Witness for C7 with one account, arbitrary failing outcomes and 3
repetitions. -/
theorem runDailyActivity_C7_witness :
    accountSwapDirs (runDailyActivity (fun _ _ => .error "boom") false 1 3) 0 =
      [swapDirections[0]!, swapDirections[1]!, swapDirections[0]!] :=
  (runDailyActivity_C7 (fun _ _ => .error "boom") 1 3 0 (by decide)).2

end TeaFI
